import Mathlib

/-!
Shallow embedding of Pentaract's client-side upload tracker:
* `src/ui/src/stores/uploadStore.js` — the upload registry (a SolidJS signal
  holding a list of upload items, mutated by `startUpload`, `updateProgress`,
  `setProcessing`, `completeUpload`, `failUpload`, `removeUpload`, observed by
  `uploads()` / `hasActiveUploads()`).
* the API transport (`apiMultipartRequestWithProgress` in the unnamed API
  module) — one XMLHttpRequest per upload, whose event listeners drive the
  registry and settle the caller's promise.
* the status-dependent remove button of
  `src/ui/src/components/UploadProgress.jsx`.

JavaScript state is made explicit: the signal's list, the monotone
`uploadIdCounter`, the wall clock (`Date.now()`), and the pending `setTimeout`
callbacks all live in a `StoreState` record. Timer firing is modelled by
`elapse`, which advances the clock and runs every due scheduled removal.
-/

namespace Pentaract

/-- The `UploadStatus` string union of uploadStore.js:
`'pending' | 'uploading' | 'processing' | 'completed' | 'error'`. -/
inductive UploadStatus where
  | pending
  | uploading
  | processing
  | completed
  | error
deriving DecidableEq, Repr

/-- The `UploadItem` record of uploadStore.js. `progress` is a JS number the
store never clamps, so it is embedded as an unrestricted `Int`; `error` is the
optional error-message field. -/
structure UploadItem where
  id : String
  fileName : String
  fileSize : Nat
  progress : Int
  status : UploadStatus
  error : Option String := none
deriving DecidableEq, Repr

/-- The mutable state surrounding the store: the module-level
`uploadIdCounter`, the signal's current list, the `setTimeout` callbacks
scheduled by `completeUpload` (absolute fire time paired with the id to
remove), and the current value of `Date.now()` in milliseconds. -/
structure StoreState where
  uploadIdCounter : Nat
  uploads : List UploadItem
  timers : List (Nat × String)
  now : Nat
deriving DecidableEq, Repr

/-- The empty initial state: `uploadIdCounter = 0`, signal `[]`. -/
def initialState : StoreState :=
  { uploadIdCounter := 0, uploads := [], timers := [], now := 0 }

/-- The id template of `startUpload`:
`` `upload-${++uploadIdCounter}-${Date.now()}` ``. -/
def mkUploadId (counter : Nat) (timeNow : Nat) : String :=
  "upload-" ++ toString counter ++ "-" ++ toString timeNow

/-- `startUpload(fileName, fileSize)`: increments the counter, builds the id,
prepends a fresh `pending` record with `progress: 0`, returns the id. -/
def startUpload (s : StoreState) (fileName : String) (fileSize : Nat) :
    String × StoreState :=
  let counter := s.uploadIdCounter + 1
  let id := mkUploadId counter s.now
  let newUpload : UploadItem :=
    { id := id, fileName := fileName, fileSize := fileSize,
      progress := 0, status := .pending, error := none }
  (id, { s with uploadIdCounter := counter, uploads := newUpload :: s.uploads })

/-- `updateProgress(id, progress)`: maps over the list, replacing the matching
record by `{ ...upload, progress, status: 'uploading' }`. -/
def updateProgress (s : StoreState) (id : String) (progress : Int) : StoreState :=
  { s with uploads := s.uploads.map fun u =>
      if u.id = id then { u with progress := progress, status := .uploading } else u }

/-- `setProcessing(id)`: replaces the matching record by
`{ ...upload, progress: 100, status: 'processing' }`. -/
def setProcessing (s : StoreState) (id : String) : StoreState :=
  { s with uploads := s.uploads.map fun u =>
      if u.id = id then { u with progress := 100, status := .processing } else u }

/-- `completeUpload(id)`: replaces the matching record by
`{ ...upload, status: 'completed' }` and schedules `removeUpload(id)` by
`setTimeout(..., 3000)`. -/
def completeUpload (s : StoreState) (id : String) : StoreState :=
  { s with
    uploads := s.uploads.map fun u =>
      if u.id = id then { u with status := .completed } else u,
    timers := (s.now + 3000, id) :: s.timers }

/-- `failUpload(id, error)`: replaces the matching record by
`{ ...upload, status: 'error', error }`. -/
def failUpload (s : StoreState) (id : String) (err : String) : StoreState :=
  { s with uploads := s.uploads.map fun u =>
      if u.id = id then { u with status := .error, error := some err } else u }

/-- `removeUpload(id)`: filters the matching record out of the list. -/
def removeUpload (s : StoreState) (id : String) : StoreState :=
  { s with uploads := s.uploads.filter fun u => u.id ≠ id }

/-- `hasActiveUploads()`: some record has status pending, uploading or
processing. -/
def hasActiveUploads (s : StoreState) : Bool :=
  s.uploads.any fun u =>
    u.status == .pending || u.status == .uploading || u.status == .processing

/-- The observer view `uploads()`: the signal's current list, in display
order (most recent first). -/
def snapshot (s : StoreState) : List UploadItem :=
  s.uploads

/-- Look a record up by id in the current list (first match, as the unique-id
invariant makes the choice immaterial). -/
def getUpload (s : StoreState) (id : String) : Option UploadItem :=
  s.uploads.find? fun u => u.id == id

/-- Event-loop timer firing: advance `Date.now()` by `d` milliseconds and run
every scheduled removal whose fire time has arrived, keeping the rest. -/
def elapse (s : StoreState) (d : Nat) : StoreState :=
  let t := s.now + d
  let due := s.timers.filter fun p => p.1 ≤ t
  let rest := s.timers.filter fun p => ¬ p.1 ≤ t
  { (due.foldl (fun st p => removeUpload st p.2) s) with now := t, timers := rest }

/-- The remove-button guard of UploadProgress.jsx: the close control renders
only when `upload().status === 'error' || upload().status === 'completed'`. -/
def showsRemoveButton (u : UploadItem) : Bool :=
  u.status == .error || u.status == .completed

/-!
The transport: `apiMultipartRequestWithProgress`. Each XHR listener is a pure
function from the event data and the current store state to the new store
state, the alerts sent through `alertStore.addAlert` during the handler, and
(for terminal listeners) the settling of the returned promise. A JS `Error`
value carries only its message string, so a rejection is embedded as
`Outcome.rejected message`; `resolve(JSON.parse(...))` versus
`resolve(undefined)` is embedded as `Outcome.resolved (some v)` versus
`Outcome.resolved none`. `JSON.parse` is a browser builtin, so the handlers
are parameterised by a partial parse function `String → Option α`.
-/

/-- How a handler settles the promise returned by
`apiMultipartRequestWithProgress`. -/
inductive Outcome (α : Type) where
  | resolved : Option α → Outcome α
  | rejected : String → Outcome α
deriving DecidableEq, Repr

/-- What one terminal XHR listener does: the registry mutation, the messages
sent to the alert store (in order), and the promise settlement. -/
structure HandlerResult (α : Type) where
  store : StoreState
  alerts : List String
  outcome : Outcome α
deriving DecidableEq, Repr

/-- `Math.round((event.loaded / event.total) * 100)` for natural byte counts:
round-half-up of `loaded * 100 / total` (0 when `total = 0`, a case
`lengthComputable` excludes). -/
def percentComplete (loaded total : Nat) : Nat :=
  if total = 0 then 0 else (200 * loaded + total) / (2 * total)

/-- The `xhr.upload` progress listener: when `event.lengthComputable`, calls
`updateProgress(uploadId, percentComplete)`; otherwise does nothing. -/
def onUploadProgress (uploadId : String) (lengthComputable : Bool)
    (loaded total : Nat) (s : StoreState) : StoreState :=
  if lengthComputable then
    updateProgress s uploadId (percentComplete loaded total)
  else s

/-- The `xhr.upload` load listener: the request body has been sent, so
`setProcessing(uploadId)`. -/
def onUploadLoad (uploadId : String) (s : StoreState) : StoreState :=
  setProcessing s uploadId

/-- The `xhr` load listener — a final HTTP response arrived. Success range
`200 <= status < 300`: `completeUpload`, then resolve with the parsed body, or
with `undefined` when the body does not parse. Otherwise: build
`xhr.responseText || "Upload failed with status ..."`, `failUpload`, one
`addAlert`, and reject with an `Error` carrying that message. -/
def onLoad (parse : String → Option α) (uploadId : String) (status : Nat)
    (responseText : String) (s : StoreState) : HandlerResult α :=
  if 200 ≤ status ∧ status < 300 then
    { store := completeUpload s uploadId
      alerts := []
      outcome := .resolved (parse responseText) }
  else
    let errorMsg :=
      if responseText = "" then "Upload failed with status " ++ toString status
      else responseText
    { store := failUpload s uploadId errorMsg
      alerts := [errorMsg]
      outcome := .rejected errorMsg }

/-- The `xhr` error listener (network-level failure): `failUpload` with
`"Network error during upload"`, one alert, rejection. -/
def onNetworkError (uploadId : String) (s : StoreState) : HandlerResult α :=
  let errorMsg := "Network error during upload"
  { store := failUpload s uploadId errorMsg
    alerts := [errorMsg]
    outcome := .rejected errorMsg }

/-- The `xhr` abort listener (caller cancellation): `failUpload` with
`"Upload cancelled"`, no alert, rejection. -/
def onAbort (uploadId : String) (s : StoreState) : HandlerResult α :=
  let errorMsg := "Upload cancelled"
  { store := failUpload s uploadId errorMsg
    alerts := []
    outcome := .rejected errorMsg }

/-!
Registry operations as a syntax of events, to talk about whole runs: any
interleaving of store mutations and timer firings that can happen after a
given state.
-/

/-- One registry-level event: a store method call or the passage of time. -/
inductive StoreOp where
  | start (fileName : String) (fileSize : Nat)
  | progress (id : String) (p : Int)
  | processing (id : String)
  | complete (id : String)
  | fail (id : String) (msg : String)
  | remove (id : String)
  | tick (d : Nat)
deriving DecidableEq, Repr

/-- Apply one event to the store state (the id returned by `start` is
dropped here; `startUpload` itself exposes it). -/
def applyOp (s : StoreState) : StoreOp → StoreState
  | .start f z => (startUpload s f z).2
  | .progress id p => updateProgress s id p
  | .processing id => setProcessing s id
  | .complete id => completeUpload s id
  | .fail id msg => failUpload s id msg
  | .remove id => removeUpload s id
  | .tick d => elapse s d

/-- Run a sequence of events. -/
def runOps (s : StoreState) (ops : List StoreOp) : StoreState :=
  ops.foldl applyOp s

/-!
Concrete sample states used to exhibit concrete behaviours: one upload of
`"a.txt"` (1000 bytes) started from the initial state.
-/

/-- The id returned by the first `startUpload` from the initial state. -/
def sampleId : String := (startUpload initialState "a.txt" 1000).1

/-- The store right after that first `startUpload`. -/
def sampleStore : StoreState := (startUpload initialState "a.txt" 1000).2

/-- The record the first `startUpload` inserts. -/
def sampleItem : UploadItem :=
  { id := sampleId, fileName := "a.txt", fileSize := 1000,
    progress := 0, status := .pending, error := none }

/-- `sampleStore` after `setProcessing`. -/
def sampleProcessing : StoreState := setProcessing sampleStore sampleId

/-- The record of `sampleProcessing`. -/
def sampleProcItem : UploadItem :=
  { sampleItem with progress := 100, status := .processing }

/-- Decimal read-back of a digit string (used to invert `Nat.repr`). -/
def ofDigitChars (l : List Char) : Nat :=
  l.foldl (fun a c => 10 * a + (c.toNat - 48)) 0

/-!
Helper lemmas: how `getUpload` interacts with each store operation.
-/

theorem getUpload_mapRewrite (s : StoreState) (id : String)
    (g : UploadItem → UploadItem) (hg : ∀ u, (g u).id = u.id) :
    getUpload { s with uploads := s.uploads.map fun u =>
        if u.id = id then g u else u } id
      = (getUpload s id).map g := by
  unfold getUpload
  rw [List.find?_map]
  have hpred : ((fun u : UploadItem => u.id == id) ∘ fun u =>
      if u.id = id then g u else u) = fun u : UploadItem => u.id == id := by
    funext u
    by_cases h : u.id = id <;> simp [h, hg]
  rw [hpred]
  cases hfind : s.uploads.find? (fun u => u.id == id) with
  | none => rfl
  | some u =>
    have hid : u.id = id := by simpa using List.find?_some hfind
    simp [hid]

theorem getUpload_mapRewrite_other (s : StoreState) (id id' : String)
    (hne : id' ≠ id) (g : UploadItem → UploadItem)
    (hg : ∀ u, (g u).id = u.id) :
    getUpload { s with uploads := s.uploads.map fun u =>
        if u.id = id then g u else u } id'
      = getUpload s id' := by
  unfold getUpload
  rw [List.find?_map]
  have hpred : ((fun u : UploadItem => u.id == id') ∘ fun u =>
      if u.id = id then g u else u) = fun u : UploadItem => u.id == id' := by
    funext u
    by_cases h : u.id = id <;> simp [h, hg]
  rw [hpred]
  cases hfind : s.uploads.find? (fun u => u.id == id') with
  | none => rfl
  | some u =>
    have hid : u.id = id' := by simpa using List.find?_some hfind
    have : ¬ u.id = id := fun e => hne (hid ▸ e)
    simp [this]

theorem getUpload_updateProgress (s : StoreState) (id : String) (p : Int) :
    getUpload (updateProgress s id p) id
      = (getUpload s id).map fun u =>
          { u with progress := p, status := .uploading } :=
  getUpload_mapRewrite s id _ fun _ => rfl

theorem getUpload_setProcessing (s : StoreState) (id : String) :
    getUpload (setProcessing s id) id
      = (getUpload s id).map fun u =>
          { u with progress := 100, status := .processing } :=
  getUpload_mapRewrite s id _ fun _ => rfl

theorem getUpload_completeUpload (s : StoreState) (id : String) :
    getUpload (completeUpload s id) id
      = (getUpload s id).map fun u => { u with status := .completed } := by
  have := getUpload_mapRewrite s id
    (fun u => { u with status := UploadStatus.completed }) fun _ => rfl
  simpa [getUpload, completeUpload] using this

theorem getUpload_failUpload (s : StoreState) (id : String) (msg : String) :
    getUpload (failUpload s id msg) id
      = (getUpload s id).map fun u =>
          { u with status := .error, error := some msg } :=
  getUpload_mapRewrite s id _ fun _ => rfl

theorem getUpload_removeUpload_self (s : StoreState) (id : String) :
    getUpload (removeUpload s id) id = none := by
  unfold getUpload removeUpload
  rw [List.find?_filter, List.find?_eq_none]
  intro u _
  by_cases h : u.id = id <;> simp [h]

theorem getUpload_removeUpload_other (s : StoreState) (id id' : String)
    (hne : id' ≠ id) : getUpload (removeUpload s id') id = getUpload s id := by
  unfold getUpload removeUpload
  rw [List.find?_filter]
  congr 1
  funext u
  by_cases h : u.id = id
  · have h2 : id ≠ id' := fun e => hne e.symm
    simp [h, h2]
  · simp [h]

theorem map_rewrite_absent (l : List UploadItem) (id : String)
    (g : UploadItem → UploadItem) (h : ∀ u ∈ l, u.id ≠ id) :
    (l.map fun u => if u.id = id then g u else u) = l := by
  induction l with
  | nil => rfl
  | cons u t ih =>
    have h1 : u.id ≠ id := h u (List.mem_cons_self u t)
    simp only [List.map_cons, if_neg h1,
      ih fun v hv => h v (List.mem_cons_of_mem u hv)]

theorem filter_ne_absent (l : List UploadItem) (id : String)
    (h : ∀ u ∈ l, u.id ≠ id) : (l.filter fun u => u.id ≠ id) = l :=
  List.filter_eq_self.mpr fun u hu => by simp [h u hu]

theorem removeUpload_idem_general (s : StoreState) (id : String) :
    removeUpload (removeUpload s id) id = removeUpload s id := by
  have hp : (fun a : UploadItem => decide (a.id ≠ id) && decide (a.id ≠ id))
      = fun a : UploadItem => decide (a.id ≠ id) :=
    funext fun a => Bool.and_self _
  simp only [removeUpload, List.filter_filter, hp]

theorem getUpload_removeUpload_none (s : StoreState) (id j : String)
    (h : getUpload s id = none) : getUpload (removeUpload s j) id = none := by
  by_cases hj : j = id
  · subst hj
    exact getUpload_removeUpload_self s j
  · rw [getUpload_removeUpload_other s id j hj]
    exact h

theorem getUpload_foldl_remove_other (l : List (Nat × String))
    (s : StoreState) (id : String) (h : ∀ p ∈ l, p.2 ≠ id) :
    getUpload (l.foldl (fun st p => removeUpload st p.2) s) id
      = getUpload s id := by
  induction l generalizing s with
  | nil => rfl
  | cons q t ih =>
    rw [List.foldl_cons,
      ih _ fun p hp => h p (List.mem_cons_of_mem q hp),
      getUpload_removeUpload_other s id q.2 (h q (List.mem_cons_self q t))]

theorem getUpload_foldl_remove_none (l : List (Nat × String))
    (s : StoreState) (id : String) (h : getUpload s id = none) :
    getUpload (l.foldl (fun st p => removeUpload st p.2) s) id = none := by
  induction l generalizing s with
  | nil => exact h
  | cons q t ih =>
    rw [List.foldl_cons]
    exact ih _ (getUpload_removeUpload_none s id q.2 h)

/-!
Decimal-representation lemmas: `Nat.repr` produces dash-free strings and is
injective, so the `upload-<counter>-<time>` template is injective in the
counter component.
-/

theorem string_data_append (a b : String) : (a ++ b).data = a.data ++ b.data :=
  rfl

theorem digitChar_ne_dash (d : Nat) (h : d < 10) : Nat.digitChar d ≠ '-' := by
  interval_cases d <;> decide

theorem digitChar_toNat_eq (d : Nat) (h : d < 10) :
    (Nat.digitChar d).toNat = 48 + d := by
  interval_cases d <;> decide

theorem toDigitsCore_ten_ne_dash (fuel : Nat) :
    ∀ (n : Nat) (acc : List Char), (∀ c ∈ acc, c ≠ '-') →
      ∀ c ∈ Nat.toDigitsCore 10 fuel n acc, c ≠ '-' := by
  induction fuel with
  | zero =>
    intro n acc hacc
    simpa [Nat.toDigitsCore] using hacc
  | succ f ih =>
    intro n acc hacc
    simp only [Nat.toDigitsCore]
    by_cases h : n / 10 = 0
    · rw [if_pos h]
      intro c hc
      rcases List.mem_cons.mp hc with rfl | hc
      · exact digitChar_ne_dash _ (Nat.mod_lt n (by omega))
      · exact hacc c hc
    · rw [if_neg h]
      refine ih (n / 10) _ ?_
      intro c hc
      rcases List.mem_cons.mp hc with rfl | hc
      · exact digitChar_ne_dash _ (Nat.mod_lt n (by omega))
      · exact hacc c hc

theorem toDigitsCore_ten_append (fuel : Nat) :
    ∀ (n : Nat) (acc : List Char),
      Nat.toDigitsCore 10 fuel n acc
        = Nat.toDigitsCore 10 fuel n [] ++ acc := by
  induction fuel with
  | zero =>
    intro n acc
    simp [Nat.toDigitsCore]
  | succ f ih =>
    intro n acc
    simp only [Nat.toDigitsCore]
    by_cases h : n / 10 = 0
    · rw [if_pos h, if_pos h]
      rfl
    · rw [if_neg h, if_neg h, ih (n / 10) (Nat.digitChar (n % 10) :: acc),
        ih (n / 10) [Nat.digitChar (n % 10)], List.append_assoc]
      rfl

theorem toDigitsCore_ten_val (fuel : Nat) :
    ∀ n, n < fuel → ofDigitChars (Nat.toDigitsCore 10 fuel n []) = n := by
  induction fuel with
  | zero =>
    intro n h
    exact absurd h (Nat.not_lt_zero n)
  | succ f ih =>
    intro n h
    simp only [Nat.toDigitsCore]
    by_cases h0 : n / 10 = 0
    · rw [if_pos h0]
      have hn : n < 10 := by omega
      have := digitChar_toNat_eq (n % 10) (Nat.mod_lt n (by omega))
      simp [ofDigitChars, this]
      omega
    · rw [if_neg h0, toDigitsCore_ten_append]
      have hfold : ofDigitChars (Nat.toDigitsCore 10 f (n / 10) []
            ++ [Nat.digitChar (n % 10)])
          = 10 * ofDigitChars (Nat.toDigitsCore 10 f (n / 10) [])
            + ((Nat.digitChar (n % 10)).toNat - 48) := by
        simp [ofDigitChars, List.foldl_append]
      rw [hfold, ih (n / 10) (by omega),
        digitChar_toNat_eq (n % 10) (Nat.mod_lt n (by omega))]
      omega

theorem ofDigitChars_repr (n : Nat) : ofDigitChars (Nat.repr n).data = n :=
  toDigitsCore_ten_val (n + 1) n (Nat.lt_succ_self n)

theorem repr_data_ne_dash (n : Nat) : ∀ c ∈ (Nat.repr n).data, c ≠ '-' :=
  toDigitsCore_ten_ne_dash (n + 1) n [] (by simp)

theorem repr_data_inj (m n : Nat)
    (h : (Nat.repr m).data = (Nat.repr n).data) : m = n := by
  have := congrArg ofDigitChars h
  rwa [ofDigitChars_repr, ofDigitChars_repr] at this

theorem append_dash_cancel (a1 : List Char) :
    ∀ (a2 b1 b2 : List Char), (∀ c ∈ a1, c ≠ '-') → (∀ c ∈ a2, c ≠ '-') →
      a1 ++ '-' :: b1 = a2 ++ '-' :: b2 → a1 = a2 ∧ b1 = b2 := by
  induction a1 with
  | nil =>
    intro a2 b1 b2 h1 h2 h
    cases a2 with
    | nil => simpa using h
    | cons c2 t2 =>
      simp only [List.nil_append, List.cons_append, List.cons.injEq] at h
      exact absurd h.1.symm (h2 c2 (List.mem_cons_self c2 t2))
  | cons c1 t1 ih =>
    intro a2 b1 b2 h1 h2 h
    cases a2 with
    | nil =>
      simp only [List.nil_append, List.cons_append, List.cons.injEq] at h
      exact absurd h.1 (h1 c1 (List.mem_cons_self c1 t1))
    | cons c2 t2 =>
      simp only [List.cons_append, List.cons.injEq] at h
      obtain ⟨rfl, h⟩ := h
      obtain ⟨e1, e2⟩ := ih t2 b1 b2
        (fun c hc => h1 c (List.mem_cons_of_mem _ hc))
        (fun c hc => h2 c (List.mem_cons_of_mem _ hc)) h
      exact ⟨by rw [e1], e2⟩

theorem mkUploadId_data (a b : Nat) :
    (mkUploadId a b).data
      = "upload-".data ++ ((Nat.repr a).data ++ '-' :: (Nat.repr b).data) := by
  show ((("upload-" ++ toString a) ++ "-") ++ toString b).data = _
  rw [string_data_append, string_data_append, string_data_append,
    List.append_assoc, List.append_assoc]
  rfl

theorem mkUploadId_counter_inj (n1 t1 n2 t2 : Nat)
    (h : mkUploadId n1 t1 = mkUploadId n2 t2) : n1 = n2 := by
  have hd := congrArg String.data h
  rw [mkUploadId_data, mkUploadId_data] at hd
  have hsplit := List.append_cancel_left hd
  obtain ⟨e, _⟩ := append_dash_cancel _ _ _ _
    (repr_data_ne_dash n1) (repr_data_ne_dash n2) hsplit
  exact repr_data_inj n1 n2 e

/-!
The upload-id counter never decreases across registry events.
-/

theorem foldl_remove_counter (l : List (Nat × String)) (s : StoreState) :
    (l.foldl (fun st p => removeUpload st p.2) s).uploadIdCounter
      = s.uploadIdCounter := by
  induction l generalizing s with
  | nil => rfl
  | cons q t ih =>
    rw [List.foldl_cons, ih]
    rfl

theorem applyOp_counter_mono (s : StoreState) (op : StoreOp) :
    s.uploadIdCounter ≤ (applyOp s op).uploadIdCounter := by
  cases op with
  | start f z => exact Nat.le_succ _
  | progress id p => exact Nat.le_refl _
  | processing id => exact Nat.le_refl _
  | complete id => exact Nat.le_refl _
  | fail id m => exact Nat.le_refl _
  | remove id => exact Nat.le_refl _
  | tick d =>
    have : (applyOp s (.tick d)).uploadIdCounter = s.uploadIdCounter :=
      foldl_remove_counter _ s
    omega

theorem runOps_counter_mono (s : StoreState) (ops : List StoreOp) :
    s.uploadIdCounter ≤ (runOps s ops).uploadIdCounter := by
  induction ops generalizing s with
  | nil => exact Nat.le_refl _
  | cons op t ih =>
    exact Nat.le_trans (applyOp_counter_mono s op) (ih (applyOp s op))

/-!
Claim theorems.
-/

/-- C1 counterexample: starting an upload, marking it Processing and then
replaying a progress callback moves the record's status back to Uploading,
so the registry's transitions are not strictly forward and `updateProgress`
does not guard against records already past Uploading. -/
theorem updateProgress_regresses_processing_to_uploading :
    (getUpload sampleProcessing sampleId).map UploadItem.status
        = some UploadStatus.processing ∧
    (getUpload (updateProgress sampleProcessing sampleId 50) sampleId).map
        UploadItem.status = some UploadStatus.uploading := by
  decide

/-- C1 (amended): `updateProgress(id, percent)` on a present record
unconditionally sets `status = Uploading` (and `progress = percent`),
whatever the record's current status — including Processing, Completed and
Error; forward-only transitions hold only because of the callers' event
ordering, not because the registry enforces them. -/
theorem updateProgress_forces_uploading_unconditionally (s : StoreState)
    (id : String) (p : Int) (u : UploadItem) (h : getUpload s id = some u) :
    getUpload (updateProgress s id p) id
      = some { u with progress := p, status := .uploading } := by
  rw [getUpload_updateProgress, h]
  rfl

/-- Witness for the amended C1 theorem at the concrete Processing record. -/
theorem updateProgress_forces_uploading_unconditionally_witness :
    getUpload sampleProcessing sampleId = some sampleProcItem ∧
    getUpload (updateProgress sampleProcessing sampleId 50) sampleId
      = some { sampleProcItem with progress := 50, status := .uploading } :=
  have h : getUpload sampleProcessing sampleId = some sampleProcItem := by
    decide
  ⟨h, updateProgress_forces_uploading_unconditionally sampleProcessing
    sampleId 50 sampleProcItem h⟩

/-- C10: for a present record, `updateProgress(id, p)` stores exactly `p` as
the record's progress — no clamping to `[0, 100]`, no rounding, no
monotonicity check — so the documented bounds hold only if every caller
supplies values satisfying them. -/
theorem updateProgress_stores_exact_value (s : StoreState) (id : String)
    (p : Int) (u : UploadItem) (h : getUpload s id = some u) :
    (getUpload (updateProgress s id p) id).map UploadItem.progress = some p := by
  rw [getUpload_updateProgress, h]
  rfl

/-- Witness for C10: a negative and an above-100 value are stored verbatim,
and a decrease from 100 is accepted. -/
theorem updateProgress_stores_exact_value_witness :
    getUpload sampleProcessing sampleId = some sampleProcItem ∧
    (getUpload (updateProgress sampleProcessing sampleId (-7)) sampleId).map
      UploadItem.progress = some (-7) ∧
    (getUpload (updateProgress sampleProcessing sampleId 150) sampleId).map
      UploadItem.progress = some 150 :=
  have h : getUpload sampleProcessing sampleId = some sampleProcItem := by
    decide
  ⟨h, updateProgress_stores_exact_value sampleProcessing sampleId (-7)
      sampleProcItem h,
    updateProgress_stores_exact_value sampleProcessing sampleId 150
      sampleProcItem h⟩

/-- C3 counterexample: failing an upload that was at 50% leaves an Error
record whose progress is still 50, not 100 — `failUpload` (and likewise
`completeUpload`) never touches `progress`. -/
theorem failUpload_keeps_partial_progress :
    (getUpload (failUpload (updateProgress sampleStore sampleId 50) sampleId
        "Network error during upload") sampleId).map UploadItem.status
      = some UploadStatus.error ∧
    (getUpload (failUpload (updateProgress sampleStore sampleId 50) sampleId
        "Network error during upload") sampleId).map UploadItem.progress
      = some 50 ∧
    (getUpload (failUpload (updateProgress sampleStore sampleId 50) sampleId
        "Network error during upload") sampleId).map UploadItem.progress
      ≠ some 100 := by
  decide

/-- C3 (amended): of the three transitions, only `markProcessing` writes
`progress = 100`; `markCompleted` and `markFailed` leave the record's
progress unchanged, so progress is 100 in Completed only because the
transport always marks Processing first, and an Error record keeps whatever
progress it last had. -/
theorem progress_after_terminal_marks (s : StoreState) (id : String)
    (msg : String) (u : UploadItem) (h : getUpload s id = some u) :
    getUpload (setProcessing s id) id
        = some { u with progress := 100, status := .processing } ∧
    getUpload (completeUpload s id) id
        = some { u with status := .completed } ∧
    getUpload (failUpload s id msg) id
        = some { u with status := .error, error := some msg } := by
  rw [getUpload_setProcessing, getUpload_completeUpload, getUpload_failUpload, h]
  exact ⟨rfl, rfl, rfl⟩

/-- Witness for the amended C3 theorem on the record uploaded to 50%:
completing or failing it keeps progress 50. -/
theorem progress_after_terminal_marks_witness :
    getUpload (updateProgress sampleStore sampleId 50) sampleId
      = some { sampleItem with progress := 50, status := .uploading } ∧
    getUpload (completeUpload (updateProgress sampleStore sampleId 50)
        sampleId) sampleId
      = some { sampleItem with progress := 50, status := .completed } ∧
    getUpload (failUpload (updateProgress sampleStore sampleId 50) sampleId
        "boom") sampleId
      = some { sampleItem with
          progress := 50, status := .error, error := some "boom" } :=
  have h : getUpload (updateProgress sampleStore sampleId 50) sampleId
      = some { sampleItem with progress := 50, status := .uploading } := by
    decide
  have hall := progress_after_terminal_marks
    (updateProgress sampleStore sampleId 50) sampleId "boom"
    { sampleItem with progress := 50, status := .uploading } h
  ⟨h, hall.2.1, hall.2.2⟩

/-- C4 counterexample: `removeUpload` on a Pending (non-terminal) record is
not a no-op — the record disappears from the collection. -/
theorem removeUpload_removes_pending_record :
    (getUpload sampleStore sampleId).map UploadItem.status
        = some UploadStatus.pending ∧
    getUpload (removeUpload sampleStore sampleId) sampleId = none := by
  decide

/-- C4 (amended): the registry's `removeUpload(id)` deletes the matching
record whatever its status (leaving all other records in place); the
terminal-only restriction is enforced one layer up, by the UI, whose remove
control renders only for records in Completed or Error. -/
theorem removeUpload_any_status_ui_guard (s : StoreState) (id : String)
    (u : UploadItem) (h : getUpload s id = some u) :
    getUpload (removeUpload s id) id = none ∧
    (∀ v ∈ s.uploads, v.id ≠ id → v ∈ (removeUpload s id).uploads) ∧
    (showsRemoveButton u = true ↔
      u.status = UploadStatus.completed ∨ u.status = UploadStatus.error) := by
  refine ⟨getUpload_removeUpload_self s id, ?_, ?_⟩
  · intro v hv hne
    simp [removeUpload, List.mem_filter, hv, hne]
  · cases hstat : u.status <;> simp [showsRemoveButton, hstat]

/-- Witness for the amended C4 theorem: removing the Pending sample record
deletes it, and its status makes the UI hide the remove control. -/
theorem removeUpload_any_status_ui_guard_witness :
    getUpload sampleStore sampleId = some sampleItem ∧
    getUpload (removeUpload sampleStore sampleId) sampleId = none ∧
    showsRemoveButton sampleItem = false :=
  have h : getUpload sampleStore sampleId = some sampleItem := by decide
  ⟨h, (removeUpload_any_status_ui_guard sampleStore sampleId sampleItem h).1,
    by decide⟩

/-- C9: registry operations called with an id absent from the collection
leave the collection unchanged (the embedding is total, so none of them can
throw), and `removeUpload` is idempotent: a second removal of the same id,
like a removal of a never-created id, has no further effect. -/
theorem registry_unknown_id_silent (s : StoreState) (id : String) (p : Int)
    (msg : String) (habs : ∀ u ∈ s.uploads, u.id ≠ id) :
    updateProgress s id p = s ∧
    setProcessing s id = s ∧
    (completeUpload s id).uploads = s.uploads ∧
    failUpload s id msg = s ∧
    removeUpload s id = s ∧
    (∀ (s' : StoreState) (id' : String),
      removeUpload (removeUpload s' id') id' = removeUpload s' id') := by
  refine ⟨?_, ?_, ?_, ?_, ?_, fun s' id' => removeUpload_idem_general s' id'⟩
  · simp only [updateProgress, map_rewrite_absent s.uploads id _ habs]
  · simp only [setProcessing, map_rewrite_absent s.uploads id _ habs]
  · simp only [completeUpload, map_rewrite_absent s.uploads id _ habs]
  · simp only [failUpload, map_rewrite_absent s.uploads id _ habs]
  · simp only [removeUpload, filter_ne_absent s.uploads id habs]

/-- Witness for C9 at a never-created id against the one-record store. -/
theorem registry_unknown_id_silent_witness :
    updateProgress sampleStore "upload-999-0" 42 = sampleStore ∧
    removeUpload sampleStore "upload-999-0" = sampleStore ∧
    removeUpload (removeUpload sampleStore sampleId) sampleId
      = removeUpload sampleStore sampleId :=
  have h := registry_unknown_id_silent sampleStore "upload-999-0" 42 "m"
    (by decide)
  ⟨h.1, h.2.2.2.2.1, h.2.2.2.2.2 sampleStore sampleId⟩

/-- C2 counterexample: the rejection produced for HTTP 500 / body
`"disk full"` is byte-for-byte the rejection produced for HTTP 404 with the
same body — the promise is rejected with a plain `Error` built from the body
alone, so the rejection carries no `status` field and cannot be a
`ServerError` carrying status 500. -/
theorem server_error_rejection_carries_no_status :
    (onLoad (fun _ => (none : Option Nat)) sampleId 500 "disk full"
        sampleStore).outcome
      = (onLoad (fun _ => (none : Option Nat)) sampleId 404 "disk full"
        sampleStore).outcome := by
  decide

/-- C2 (amended): on a final HTTP 500 response with body `"disk full"`, the
load handler leaves the record with status Error and errorMessage
`"disk full"`, pushes exactly one alert with that message, and rejects the
caller's promise with an `Error` whose message is the body (the body, not
the HTTP status, is all the rejection carries). -/
theorem server_error_disk_full_behavior {α : Type}
    (parse : String → Option α) (s : StoreState) (id : String)
    (u : UploadItem) (h : getUpload s id = some u) :
    getUpload (onLoad parse id 500 "disk full" s).store id
      = some { u with status := .error, error := some "disk full" } ∧
    (onLoad parse id 500 "disk full" s).alerts = ["disk full"] ∧
    (onLoad parse id 500 "disk full" s).outcome = .rejected "disk full" := by
  have hcase : onLoad parse id 500 "disk full" s
      = { store := failUpload s id "disk full", alerts := ["disk full"],
          outcome := .rejected "disk full" } := by
    simp [onLoad]
  rw [hcase]
  refine ⟨?_, rfl, rfl⟩
  rw [getUpload_failUpload, h]
  rfl

/-- Witness for the amended C2 theorem at the concrete one-record store. -/
theorem server_error_disk_full_behavior_witness :
    getUpload sampleStore sampleId = some sampleItem ∧
    getUpload (onLoad (fun _ => (none : Option Nat)) sampleId 500 "disk full"
        sampleStore).store sampleId
      = some { sampleItem with status := .error, error := some "disk full" } ∧
    (onLoad (fun _ => (none : Option Nat)) sampleId 500 "disk full"
        sampleStore).alerts = ["disk full"] :=
  have h : getUpload sampleStore sampleId = some sampleItem := by decide
  have hall := server_error_disk_full_behavior
    (fun _ => (none : Option Nat)) sampleStore sampleId sampleItem h
  ⟨h, hall.1, hall.2.1⟩

/-- C7: on a final response with a success-range status, the load handler
marks the record Completed, sends no alert, and resolves the promise with
the parsed body — `some v` when the body parses, `none` (JS `undefined`)
when it does not; an unparseable success body is never a failure. -/
theorem success_response_resolves {α : Type} (parse : String → Option α)
    (s : StoreState) (id : String) (status : Nat) (body : String)
    (u : UploadItem) (h : getUpload s id = some u)
    (hst : 200 ≤ status ∧ status < 300) :
    getUpload (onLoad parse id status body s).store id
      = some { u with status := .completed } ∧
    (onLoad parse id status body s).alerts = [] ∧
    (onLoad parse id status body s).outcome = .resolved (parse body) ∧
    (parse body = none →
      (onLoad parse id status body s).outcome = .resolved none) := by
  have hcase : onLoad parse id status body s
      = { store := completeUpload s id, alerts := [],
          outcome := .resolved (parse body) } := by
    simp [onLoad, hst]
  rw [hcase]
  refine ⟨?_, rfl, rfl, fun hp => by rw [hp]⟩
  rw [getUpload_completeUpload, h]
  rfl

/-- Witness for C7: a 204 response whose body `"not json"` parses to
nothing still completes the record and resolves with `undefined`. -/
theorem success_response_resolves_witness :
    (200 ≤ 204 ∧ 204 < 300) ∧
    getUpload (onLoad (fun _ => (none : Option Nat)) sampleId 204 "not json"
        sampleStore).store sampleId
      = some { sampleItem with status := .completed } ∧
    (onLoad (fun _ => (none : Option Nat)) sampleId 204 "not json"
        sampleStore).alerts = [] ∧
    (onLoad (fun _ => (none : Option Nat)) sampleId 204 "not json"
        sampleStore).outcome = .resolved none :=
  have h : getUpload sampleStore sampleId = some sampleItem := by decide
  have hall := success_response_resolves (fun _ => (none : Option Nat))
    sampleStore sampleId 204 "not json" sampleItem h (by decide)
  ⟨by decide, hall.1, hall.2.1, hall.2.2.2 rfl⟩

/-- C8 counterexample: the abort listener records the message
`"Upload cancelled"`, not the literal `"cancelled"` the claim names. -/
theorem abort_message_is_upload_cancelled :
    (getUpload (onAbort (α := Nat) sampleId sampleStore).store
        sampleId).map UploadItem.error = some (some "Upload cancelled") ∧
    (getUpload (onAbort (α := Nat) sampleId sampleStore).store
        sampleId).map UploadItem.error ≠ some (some "cancelled") := by
  decide

/-- C8 (amended): on caller cancellation the abort listener calls
`failUpload(id, "Upload cancelled")`, sends no alert, and rejects the
promise with an `Error` whose message is `"Upload cancelled"` (a plain
`Error`, distinguishable from other failures only by its message). -/
theorem abort_behavior {α : Type} (s : StoreState) (id : String)
    (u : UploadItem) (h : getUpload s id = some u) :
    getUpload (onAbort (α := α) id s).store id
      = some { u with status := .error, error := some "Upload cancelled" } ∧
    (onAbort (α := α) id s).alerts = [] ∧
    (onAbort (α := α) id s).outcome = .rejected "Upload cancelled" := by
  refine ⟨?_, rfl, rfl⟩
  show getUpload (failUpload s id "Upload cancelled") id = _
  rw [getUpload_failUpload, h]
  rfl

/-- Witness for the amended C8 theorem at the concrete one-record store. -/
theorem abort_behavior_witness :
    getUpload sampleStore sampleId = some sampleItem ∧
    getUpload (onAbort (α := Nat) sampleId sampleStore).store sampleId
      = some { sampleItem with
          status := .error, error := some "Upload cancelled" } ∧
    (onAbort (α := Nat) sampleId sampleStore).alerts = [] :=
  have h : getUpload sampleStore sampleId = some sampleItem := by decide
  have hall := abort_behavior (α := Nat) sampleStore sampleId sampleItem h
  ⟨h, hall.1, hall.2.1⟩

/-- C6: `completeUpload(id)` marks the present record Completed and
schedules its removal for 3000 ms later (the literal `setTimeout` constant):
as long as strictly less than 3000 ms elapse the record is still in the
snapshot unchanged, and once 3000 ms or more have elapsed the fired timer
has removed it, provided no earlier-scheduled removal targets the same id. -/
theorem completed_record_auto_removed (s : StoreState) (id : String)
    (u : UploadItem) (d : Nat) (h : getUpload s id = some u)
    (htimers : ∀ p ∈ s.timers, p.2 ≠ id) :
    getUpload (completeUpload s id) id
        = some { u with status := .completed } ∧
    (d < 3000 → getUpload (elapse (completeUpload s id) d) id
        = some { u with status := .completed }) ∧
    (d < 3000 → ∃ v ∈ snapshot (elapse (completeUpload s id) d), v.id = id) ∧
    (3000 ≤ d → getUpload (elapse (completeUpload s id) d) id = none) ∧
    (3000 ≤ d → ∀ v ∈ snapshot (elapse (completeUpload s id) d),
      v.id ≠ id) := by
  have hc : getUpload (completeUpload s id) id
      = some { u with status := .completed } := by
    rw [getUpload_completeUpload, h]
    rfl
  have hstep : getUpload (elapse (completeUpload s id) d) id
      = getUpload ((((s.now + 3000, id) :: s.timers).filter
          fun p => p.1 ≤ s.now + d).foldl
          (fun st p => removeUpload st p.2) (completeUpload s id)) id := rfl
  have hlt : d < 3000 → getUpload (elapse (completeUpload s id) d) id
      = some { u with status := .completed } := by
    intro hd
    rw [hstep, List.filter_cons, if_neg (by simp; omega),
      getUpload_foldl_remove_other _ _ _
        fun p hp => htimers p (List.mem_of_mem_filter hp)]
    exact hc
  have hge : 3000 ≤ d → getUpload (elapse (completeUpload s id) d) id
      = none := by
    intro hd
    rw [hstep, List.filter_cons, if_pos (by simp; omega), List.foldl_cons]
    exact getUpload_foldl_remove_none _ _ _
      (getUpload_removeUpload_self (completeUpload s id) id)
  refine ⟨hc, hlt, ?_, hge, ?_⟩
  · intro hd
    have hfind : (snapshot (elapse (completeUpload s id) d)).find?
        (fun v => v.id == id) = some { u with status := .completed } := hlt hd
    exact ⟨_, List.mem_of_find?_eq_some hfind, by
      simpa using List.find?_some hfind⟩
  · intro hd v hv
    have hnone : (snapshot (elapse (completeUpload s id) d)).find?
        (fun v => v.id == id) = none := hge hd
    simpa using List.find?_eq_none.mp hnone v hv

/-- C5: `startUpload(fileName, fileSize)` prepends a fresh record with
status Pending, progress 0 and the given name and size, returning its id;
and the id returned by any later `startUpload` in the same run — after any
sequence of registry events — differs from it, because the module-level
counter embedded in the id only ever increases. -/
theorem startUpload_fresh_ids (s : StoreState) (f1 : String) (z1 : Nat)
    (ops : List StoreOp) (f2 : String) (z2 : Nat) :
    (startUpload s f1 z1).2.uploads
        = { id := (startUpload s f1 z1).1, fileName := f1, fileSize := z1,
            progress := 0, status := .pending, error := none }
          :: s.uploads ∧
    (startUpload (runOps (startUpload s f1 z1).2 ops) f2 z2).1
        ≠ (startUpload s f1 z1).1 := by
  refine ⟨rfl, ?_⟩
  intro he
  have h1 : (startUpload s f1 z1).1
      = mkUploadId (s.uploadIdCounter + 1) s.now := rfl
  have h2 : (startUpload (runOps (startUpload s f1 z1).2 ops) f2 z2).1
      = mkUploadId ((runOps (startUpload s f1 z1).2 ops).uploadIdCounter + 1)
          (runOps (startUpload s f1 z1).2 ops).now := rfl
  rw [h1, h2] at he
  have heq := mkUploadId_counter_inj _ _ _ _ he
  have hge := runOps_counter_mono (startUpload s f1 z1).2 ops
  have hc : (startUpload s f1 z1).2.uploadIdCounter
      = s.uploadIdCounter + 1 := rfl
  omega

/-- Witness for C6: the completed sample record is still visible after
2999 ms and gone at 3000 ms. -/
theorem completed_record_auto_removed_witness :
    getUpload (completeUpload sampleStore sampleId) sampleId
      = some { sampleItem with status := .completed } ∧
    getUpload (elapse (completeUpload sampleStore sampleId) 2999) sampleId
      = some { sampleItem with status := .completed } ∧
    getUpload (elapse (completeUpload sampleStore sampleId) 3000) sampleId
      = none :=
  have h : getUpload sampleStore sampleId = some sampleItem := by decide
  have h1 := completed_record_auto_removed sampleStore sampleId sampleItem
    2999 h (by decide)
  have h2 := completed_record_auto_removed sampleStore sampleId sampleItem
    3000 h (by decide)
  ⟨h1.1, h1.2.1 (by decide), h2.2.2.2.1 (by decide)⟩

end Pentaract
